import Mathlib

/-!
Shallow embedding of the HyperRAM controller of `src/hyperbus.py`
(muTau-RV32-SoC), together with theorems checking the specification's
claims about it.

The controller is a migen `Module`; its synchronous behaviour is the
parallel execution, on every clock edge, of the statements added to
`self.sync`, later statements overriding earlier ones on the signals
they both assign.  We model one clock edge as a pure step function
`stepHR dw latency : State -> Input -> State`, composed of the sync
groups in the order the source adds them:

  1. `_setup_clock_generation` : `clk_phase` increment and the `Case`
     driving `clk` (hyperbus.py lines 96-107);
  2. `_setup_data_path`        : `dqi` sampling and the shift of `sr`
     (lines 109-129);
  3. the `timeline(...)` call of `_setup_sequencer` (lines 206-211),
     whose semantics are those of `migen.genlib.misc.timeline`: a
     counter held at 0 while idle, set to 1 on the trigger, incremented
     every cycle while non-zero, reset to 0 at the last event time
     (the last event time plus one is not a power of two here, so the
     explicit reset is generated); each event's actions execute on the
     cycle on which the counter equals the event's absolute offset.

Combinational signals (`ca`, `dq.o`, `bus.dat_r`, `rwds.o`, `cs_n`)
are pure functions of the state and the live bus inputs.
-/

namespace HyperRAMModel

/-- Bus-side and pad-side inputs of one cycle: the Wishbone request
fields (`cyc`, `stb`, `we`, `adr`, `dat_w`, `sel`) and the value on the
`dq` input pins. -/
structure Input where
  cyc : Bool
  stb : Bool
  we : Bool
  adr : Nat
  dat_w : Nat
  sel : Nat
  dq_in : Nat
deriving DecidableEq

/-- The registers of the controller: the 2-bit phase counter and the
`clk` output register (`_setup_clock_generation`), the sampled input
`dqi` and 48-bit shift register `sr` (`_setup_data_path`), the timeline
counter of `migen.genlib.misc.timeline`, and the registers assigned by
timeline actions (`cs`, `ca_active`, `dq_oe`, `rwds_oe`, `rwds_out`,
`bus.ack`). -/
structure State where
  clk_phase : Nat
  clk : Bool
  cs : Bool
  ca_active : Bool
  sr : Nat
  dqi : Nat
  counter : Nat
  dq_oe : Bool
  rwds_oe : Bool
  rwds_out : Nat
  ack : Bool
deriving DecidableEq

/-- The all-zero reset state of the registers. -/
def s0 : State :=
  { clk_phase := 0, clk := false, cs := false, ca_active := false,
    sr := 0, dqi := 0, counter := 0, dq_oe := false, rwds_oe := false,
    rwds_out := 0, ack := false }

/-- `lat_cycles = (latency * 8) - 4` of `_setup_sequencer` (line 192). -/
def latCycles (latency : Nat) : Nat := latency * 8 - 4

/-- Fuel-driven helper for `bitsFor`. -/
def bitsForAux : Nat → Nat → Nat
  | 0, _ => 0
  | fuel + 1, m => if m = 0 then 0 else bitsForAux fuel (m / 2) + 1

/-- Bit length of `n` (migen's `bits_for` for unsigned values): the
number of bits of the counter register `Signal(max=lastevent+1)`. -/
def bitsFor (n : Nat) : Nat := bitsForAux n n

/-- Tags naming the entries of the delta-time sequence built by
`_build_access_sequence`, in source order. -/
inductive SeqTag where
  | initialDelay
  | caPhase
  | latencyPhase
  | dataSub (k : Nat)
  | teardown
  | ackOn
  | ackOff
  | seqEnd
deriving DecidableEq

/-- The delta-time sequence of `_build_access_sequence` (lines 220-291):
each entry is (delta, tag), the tag standing for the action list of that
entry.  The data phase has four 2-cycle sub-steps for `dw = 8` and two
2-cycle sub-steps for `dw = 16`. -/
def dtSequence (dw latency : Nat) : List (Nat × SeqTag) :=
  [(3, SeqTag.initialDelay),
   (12, SeqTag.caPhase),
   (latCycles latency, SeqTag.latencyPhase)]
  ++ (if dw = 8 then
        [(2, SeqTag.dataSub 0), (2, SeqTag.dataSub 1),
         (2, SeqTag.dataSub 2), (2, SeqTag.dataSub 3)]
      else
        [(2, SeqTag.dataSub 0), (2, SeqTag.dataSub 1)])
  ++ [(2, SeqTag.teardown),
      (1, SeqTag.ackOn),
      (1, SeqTag.ackOff),
      (0, SeqTag.seqEnd)]

/-- The loop of `_setup_sequencer` lines 200-204: convert delta times to
absolute times (each entry keeps its tag, paired with the sum of the
deltas before it). -/
def toAbsolute (t : Nat) : List (Nat × SeqTag) → List (Nat × SeqTag)
  | [] => []
  | (dt, a) :: rest => (t, a) :: toAbsolute (t + dt) rest

/-- Absolute time of the command-address event. -/
def tCA : Nat := 3

/-- Absolute time of the latency-phase event. -/
def tLatency : Nat := 15

/-- Absolute time of the first data-phase event. -/
def tData (latency : Nat) : Nat := 15 + latCycles latency

/-- Length in cycles of the data phase of the built sequence. -/
def dataCycles (dw : Nat) : Nat := if dw = 8 then 8 else 4

/-- Absolute time of the teardown event. -/
def tTeardown (dw latency : Nat) : Nat := tData latency + dataCycles dw

/-- Absolute time of the acknowledge-assert event. -/
def tAckOn (dw latency : Nat) : Nat := tTeardown dw latency + 2

/-- Absolute time of the acknowledge-deassert event. -/
def tAckOff (dw latency : Nat) : Nat := tTeardown dw latency + 3

/-- Absolute time of the final (empty) entry: the largest event time of
the timeline, at which `migen.genlib.misc.timeline` resets its counter. -/
def lastEvent (dw latency : Nat) : Nat := tTeardown dw latency + 4

/-- `_setup_command_address` (lines 142-172): the 48-bit command-address
word, a combinational function of the live request.  `bus.adr` is a
30-bit signal, `adr[2:]` taken as its upper 28 bits in 8-bit mode
(upper 27 bits of `adr[3:]` in 16-bit mode), zero-extended into the
29-bit slice `ca[16:45]`; `ca[46]` is never assigned and stays 0. -/
def caWord (dw : Nat) (we : Bool) (adr : Nat) : Nat :=
  (if we then 0 else 2 ^ 47)
  + 2 ^ 45
  + (if dw = 8 then
      (adr / 4 % 2 ^ 28) * 2 ^ 16 + (adr % 4) * 2
     else
      (adr / 8 % 2 ^ 27) * 2 ^ 16 + (adr / 2 % 4) * 2 + adr % 2)

/-- The trigger of the timeline (lines 206-209):
`bus.cyc & bus.stb & (clk_phase == 1)`. -/
def trigger (s : State) (i : Input) : Bool :=
  i.cyc && i.stb && (s.clk_phase == 1)

/-- The shift of `_setup_data_path` (lines 117-129): on phases 0 and 2,
shift `dqi` into the bottom of `sr` — 8 bits during the CA phase
(`Cat(dqi[:8], sr[:-8])`), the full data width otherwise
(`Cat(dqi, sr[:-dw])`); on other phases `sr` is unchanged. -/
def shiftSr (dw : Nat) (s : State) : Nat :=
  if s.clk_phase == 0 || s.clk_phase == 2 then
    if s.ca_active then
      s.dqi % 2 ^ 8 + (s.sr % 2 ^ 40) * 2 ^ 8
    else
      s.dqi % 2 ^ dw + (s.sr % 2 ^ (48 - dw)) * 2 ^ dw
  else s.sr

/-- Sync groups added before the timeline: `clk_phase` increment, the
`Case` on `clk_phase` driving `clk` (lines 101-107), the sampling of
`dq.i` into `dqi` (line 114) and the shift of `sr` (lines 117-129). -/
def syncFree (dw : Nat) (s : State) (i : Input) : State :=
  { s with
    clk_phase := (s.clk_phase + 1) % 4,
    clk := if s.clk_phase == 1 then s.cs
           else if s.clk_phase == 3 then false
           else s.clk,
    dqi := i.dq_in % 2 ^ dw,
    sr := shiftSr dw s }

/-- The counter logic of `migen.genlib.misc.timeline`: reset to 0 at the
last event time when the counter would not overflow naturally (the test
`lastevent & (lastevent + 1) != 0`), otherwise increment while nonzero
(the counter is a `bits_for lastevent`-bit signal), otherwise start at 1
on the trigger.  `s0` is the pre-edge state. -/
def tlCounter (dw latency : Nat) (s0 : State) (i : Input) (s : State) : State :=
  { s with counter :=
      if lastEvent dw latency &&& (lastEvent dw latency + 1) ≠ 0
          ∧ s0.counter = lastEvent dw latency then 0
      else if s0.counter ≠ 0 then
        (s0.counter + 1) % 2 ^ bitsFor (lastEvent dw latency)
      else if trigger s0 i then 1 else 0 }

/-- `rwds_out[0].eq(b)`: assign bit 0 of the 2-bit `rwds_out`, keeping
bit 1. -/
def setRwds0 (r : Nat) (b : Bool) : Nat :=
  (r / 2 % 2) * 2 + (if b then 1 else 0)

/-- The timeline event actions of `_build_access_sequence`, applied in
list order (each an independent `If(counter == t, ...)` in the generated
sync block; at most one fires per cycle since the event times are
distinct for every `latency ≥ 1`).  `p` is the pre-edge state (whose
`counter` the conditions test and whose `rwds_out` partial assignments
preserve); timeline statements come after the data-path statements in
`self.sync`, so they override the shift of `sr`. -/
def tlEvents (dw latency : Nat) (p : State) (i : Input) (s : State) : State :=
  -- CA phase (lines 225-230): cs, dq.oe, sr := ca, ca_active
  let s := if p.counter = tCA then
    { s with cs := true, dq_oe := true,
             sr := caWord dw i.we i.adr, ca_active := true } else s
  -- latency phase (lines 233-236)
  let s := if p.counter = tLatency then
    { s with dq_oe := false, ca_active := false } else s
  -- data phase (lines 240-273)
  let s := if dw = 8 then
    let s := if p.counter = tData latency then
      { s with dq_oe := i.we,
               sr := (i.dat_w % 2 ^ 32) * 2 ^ 16,
               rwds_oe := i.we,
               rwds_out := setRwds0 p.rwds_out (! i.sel.testBit 3) } else s
    let s := if p.counter = tData latency + 2 then
      { s with rwds_out := setRwds0 p.rwds_out (! i.sel.testBit 2) } else s
    let s := if p.counter = tData latency + 4 then
      { s with rwds_out := setRwds0 p.rwds_out (! i.sel.testBit 1) } else s
    let s := if p.counter = tData latency + 6 then
      { s with rwds_out := setRwds0 p.rwds_out (! i.sel.testBit 0) } else s
    s
  else
    let s := if p.counter = tData latency then
      { s with dq_oe := i.we,
               sr := (i.dat_w % 2 ^ 32) * 2 ^ 16,
               rwds_oe := i.we,
               rwds_out := (if ! i.sel.testBit 3 then 2 else 0)
                           + (if ! i.sel.testBit 2 then 1 else 0) } else s
    let s := if p.counter = tData latency + 2 then
      { s with rwds_out := (if ! i.sel.testBit 1 then 2 else 0)
                           + (if ! i.sel.testBit 0 then 1 else 0) } else s
    s
  -- end sequence (lines 276-289)
  let s := if p.counter = tTeardown dw latency then
    { s with cs := false, rwds_oe := false, dq_oe := false } else s
  let s := if p.counter = tAckOn dw latency then { s with ack := true } else s
  let s := if p.counter = tAckOff dw latency then { s with ack := false } else s
  s

/-- One clock edge of the controller: the sync groups in source order,
later groups overriding earlier ones. -/
def stepHR (dw latency : Nat) (s : State) (i : Input) : State :=
  tlEvents dw latency s i (tlCounter dw latency s i (syncFree dw s i))

/-- The trace of the controller from state `s` under input stream `u`:
`runHR dw latency u s n` is the register state during cycle `n`. -/
def runHR (dw latency : Nat) (u : Nat → Input) (s : State) : Nat → State
  | 0 => s
  | n + 1 => stepHR dw latency (runHR dw latency u s n) (u n)

/-- Combinational output `bus.dat_r.eq(sr)` (line 133): `bus.dat_r` is a
32-bit signal, so it carries the low 32 bits of `sr`. -/
def dat_r (s : State) : Nat := s.sr % 2 ^ 32

/-- Combinational output on the `dq` pins (lines 134-139): top 8 bits of
`sr` during the CA phase, top `dw` bits otherwise. -/
def dq_o (dw : Nat) (s : State) : Nat :=
  if s.ca_active then s.sr / 2 ^ 40 else s.sr / 2 ^ (48 - dw)

/-- Combinational output `rwds.o.eq(rwds_out)` (line 218). -/
def rwds_o (s : State) : Nat := s.rwds_out

/-- Construction-time configuration of a controller instance. -/
structure Config where
  dw : Nat
  latency : Nat
deriving DecidableEq

/-- `HyperRAM.__init__` width check (lines 58-59):
`assert dw in [8, 16]` raises before any other elaboration if the data
width is unsupported. -/
def mkHyperRAM (dw latency : Nat) : Except String Config :=
  if dw = 8 ∨ dw = 16 then Except.ok { dw := dw, latency := latency }
  else Except.error "Unsupported data width"

/-- A reset state whose phase counter is at phase 1 (the designated
transaction-start phase). -/
def sP1 : State := { s0 with clk_phase := 1 }

/-- A reset state whose phase counter is at phase 2. -/
def sPhase2 : State := { s0 with clk_phase := 2 }

/-- Input stream holding a read request pending on every cycle. -/
def uHeld : Nat → Input := fun _ =>
  { cyc := true, stb := true, we := false, adr := 0, dat_w := 0, sel := 15, dq_in := 0 }

/-- Input stream holding a read request pending on every cycle (used for
the C1 run). -/
def c1u : Nat → Input := fun _ =>
  { cyc := true, stb := true, we := false, adr := 0, dat_w := 0, sel := 15, dq_in := 0 }

/-- Input stream holding a write request with payload 1 pending on every
cycle. -/
def c7u : Nat → Input := fun _ =>
  { cyc := true, stb := true, we := true, adr := 0, dat_w := 1, sel := 15, dq_in := 0 }

/-- Input stream with a single read request pending at cycle 0 and the
`dq` input pins changing value on every later cycle (no second request
ever arrives). -/
def c8u : Nat → Input := fun n =>
  if n = 0 then
    { cyc := true, stb := true, we := false, adr := 0, dat_w := 0, sel := 15, dq_in := 0 }
  else
    { cyc := false, stb := false, we := false, adr := 0, dat_w := 0, sel := 15, dq_in := n }

/-- A constant write request. -/
def c10base : Input :=
  { cyc := true, stb := true, we := true, adr := 0, dat_w := 0, sel := 15, dq_in := 0 }

/-- Write request held on every cycle with payload 0. -/
def c10u : Nat → Input := fun _ => c10base

/-- Same as `c10u` at the trigger cycle, but with the write payload
changed on every later cycle (in particular at the data-phase action
cycle). -/
def c10v : Nat → Input := fun n =>
  if n = 0 then c10base else { c10base with dat_w := 16777216 }

/-- Same as `c10u` except that the address differs at the trigger cycle
only (cycle 0), where no timeline action reads it. -/
def c10w : Nat → Input := fun n =>
  if n = 0 then { c10base with adr := 77 } else c10base

end HyperRAMModel

namespace HyperRAMModel

/-! ### Helper lemmas about the step function -/

lemma tlEvents_counter (dw latency : Nat) (p : State) (i : Input) (s : State) :
    (tlEvents dw latency p i s).counter = s.counter := by
  simp [tlEvents, apply_ite State.counter]

lemma tlEvents_clk_phase (dw latency : Nat) (p : State) (i : Input) (s : State) :
    (tlEvents dw latency p i s).clk_phase = s.clk_phase := by
  simp [tlEvents, apply_ite State.clk_phase]

lemma tlEvents_dqi (dw latency : Nat) (p : State) (i : Input) (s : State) :
    (tlEvents dw latency p i s).dqi = s.dqi := by
  simp [tlEvents, apply_ite State.dqi]

lemma tlEvents_clk (dw latency : Nat) (p : State) (i : Input) (s : State) :
    (tlEvents dw latency p i s).clk = s.clk := by
  simp [tlEvents, apply_ite State.clk]

lemma lastEvent86 : lastEvent 8 6 = 71 := by
  norm_num [lastEvent, tTeardown, tData, latCycles, dataCycles]

/-- The timeline counter of the width-8, latency-6 instance: idle at 0
until the trigger, then counting 1, 2, ..., 71, 0. -/
lemma counter_step86 (s : State) (i : Input) :
    (stepHR 8 6 s i).counter =
      if s.counter = 71 then 0
      else if s.counter = 0 then (if trigger s i then 1 else 0)
      else (s.counter + 1) % 128 := by
  have hsz : bitsFor 71 = 7 := by decide
  have hland : ¬(71 &&& 72 : Nat) = 0 := by decide
  rw [stepHR, tlEvents_counter]
  simp only [tlCounter, syncFree, lastEvent86, hsz]
  simp [hland]

/-- `bus.ack` of the width-8, latency-6 instance: set at event time 69,
cleared at event time 70, otherwise held. -/
lemma ack_step86 (s : State) (i : Input) :
    (stepHR 8 6 s i).ack =
      if s.counter = 70 then false
      else if s.counter = 69 then true
      else s.ack := by
  simp [stepHR, tlEvents, tlCounter, syncFree, apply_ite State.ack,
        tCA, tLatency, tData, latCycles, tTeardown, dataCycles, tAckOn, tAckOff]

lemma runHR_succ (dw latency : Nat) (u : Nat → Input) (s : State) (n : Nat) :
    runHR dw latency u s (n + 1) = stepHR dw latency (runHR dw latency u s n) (u n) := rfl

lemma counter_step_le_succ (s : State) (i : Input) :
    (stepHR 8 6 s i).counter ≤ s.counter + 1 := by
  rw [counter_step86]
  have := Nat.mod_le (s.counter + 1) 128
  split_ifs <;> omega

lemma counter_step_at (s : State) (i : Input) (c : Nat) (h : s.counter = c)
    (h0 : c ≠ 0) (h71 : c < 71) : (stepHR 8 6 s i).counter = c + 1 := by
  rw [counter_step86, h]
  have hne : ¬ c = 71 := by omega
  simp [h0, hne]
  omega

lemma counter_step_last (s : State) (i : Input) (h : s.counter = 71) :
    (stepHR 8 6 s i).counter = 0 := by
  rw [counter_step86, h]
  simp

/-- After a trigger from idle, the counter tracks the elapsed cycle
count for the 72 cycles of the timeline. -/
lemma run_counter_track (u : Nat → Input) (s : State) (h0 : s.counter = 0)
    (ht : trigger s (u 0) = true) :
    ∀ k, k ≤ 71 → (runHR 8 6 u s k).counter = k := by
  intro k hk
  induction k with
  | zero => exact h0
  | succ n ih =>
    have ihn := ih (by omega)
    rw [runHR_succ]
    by_cases hn : n = 0
    · subst hn
      have hr0 : runHR 8 6 u s 0 = s := rfl
      rw [counter_step86, ihn]
      rw [hr0, ht]
      simp
    · exact counter_step_at _ _ n ihn hn (by omega)

lemma run_ack_low (u : Nat → Input) (s : State) (h0 : s.counter = 0)
    (ht : trigger s (u 0) = true) (ha : s.ack = false) :
    ∀ k, k ≤ 69 → (runHR 8 6 u s k).ack = false := by
  intro k hk
  induction k with
  | zero => exact ha
  | succ n ih =>
    have hc : (runHR 8 6 u s n).counter = n :=
      run_counter_track u s h0 ht n (by omega)
    have hn69 : ¬ n = 69 := by omega
    have hn70 : ¬ n = 70 := by omega
    rw [runHR_succ, ack_step86, hc]
    simp [hn69, hn70]
    exact ih (by omega)

/-- An acknowledgment pulse at cycle `n` originates from the counter
being at 69 on cycle `n - 1`. -/
lemma ack_origin (u : Nat → Input) (s : State) (ha : s.ack = false) :
    ∀ n, (runHR 8 6 u s n).ack = true →
      ∃ m, n = m + 1 ∧ (runHR 8 6 u s m).counter = 69 := by
  intro n
  induction n with
  | zero => intro h; rw [show runHR 8 6 u s 0 = s from rfl, ha] at h; exact absurd h (by simp)
  | succ m ih =>
    intro h
    rw [runHR_succ, ack_step86] at h
    by_cases h69 : (runHR 8 6 u s m).counter = 69
    · exact ⟨m, rfl, h69⟩
    · by_cases h70 : (runHR 8 6 u s m).counter = 70
      · rw [if_pos h70] at h
        exact absurd h (by simp)
      · rw [if_neg h70, if_neg h69] at h
        obtain ⟨p, hp, hp69⟩ := ih h
        have : (runHR 8 6 u s m).counter = 70 := by
          rw [hp, runHR_succ]
          exact counter_step_at _ _ 69 hp69 (by omega) (by omega)
        exact absurd this h70

/-- Two cycles at which the counter is 69 are at least 72 cycles apart:
from 69 the counter is forced through 70, 71, 0 and then needs at least
69 further cycles to climb back, whatever the inputs do. -/
lemma counter69_spacing (u : Nat → Input) (s : State) :
    ∀ m n, m < n → (runHR 8 6 u s m).counter = 69 →
      (runHR 8 6 u s n).counter = 69 → m + 72 ≤ n := by
  intro m n hmn h69m h69n
  have h70 : (runHR 8 6 u s (m + 1)).counter = 70 := by
    rw [runHR_succ]; exact counter_step_at _ _ 69 h69m (by omega) (by omega)
  have h71 : (runHR 8 6 u s (m + 2)).counter = 71 := by
    rw [show m + 2 = (m + 1) + 1 by omega, runHR_succ]
    exact counter_step_at _ _ 70 h70 (by omega) (by omega)
  have hz : (runHR 8 6 u s (m + 3)).counter = 0 := by
    rw [show m + 3 = (m + 2) + 1 by omega, runHR_succ]
    exact counter_step_last _ _ h71
  have climb : ∀ j, (runHR 8 6 u s (m + 3 + j)).counter ≤ j := by
    intro j
    induction j with
    | zero => simp only [Nat.add_zero]; omega
    | succ p ihp =>
      have := counter_step_le_succ (runHR 8 6 u s (m + 3 + p)) (u (m + 3 + p))
      rw [show m + 3 + (p + 1) = (m + 3 + p) + 1 by omega, runHR_succ]
      omega
  have hne1 : n ≠ m + 1 := by intro e; rw [e, h70] at h69n; omega
  have hne2 : n ≠ m + 2 := by intro e; rw [e, h71] at h69n; omega
  have hge : m + 3 ≤ n := by omega
  have := climb (n - (m + 3))
  rw [show m + 3 + (n - (m + 3)) = n by omega, h69n] at this
  omega

/-- The step function reads the request fields only at the cycles on
which a timeline action uses them: `cyc`/`stb`/`dq_in` every cycle,
`we`/`adr` at the CA event, `we`/`dat_w`/`sel` at the data events. -/
lemma step_congr (t : State) (i j : Input)
    (hcyc : i.cyc = j.cyc) (hstb : i.stb = j.stb) (hdq : i.dq_in = j.dq_in)
    (hca : t.counter = 3 → i.we = j.we ∧ i.adr = j.adr)
    (hdata : (t.counter = 59 ∨ t.counter = 61 ∨ t.counter = 63 ∨ t.counter = 65) →
      i.we = j.we ∧ i.dat_w = j.dat_w ∧ i.sel = j.sel) :
    stepHR 8 6 t i = stepHR 8 6 t j := by
  have hsf : syncFree 8 t i = syncFree 8 t j := by simp [syncFree, hdq]
  have htr : trigger t i = trigger t j := by simp [trigger, hcyc, hstb]
  have htc : tlCounter 8 6 t i (syncFree 8 t j) = tlCounter 8 6 t j (syncFree 8 t j) := by
    simp [tlCounter, htr]
  unfold stepHR
  rw [hsf, htc]
  by_cases h3 : t.counter = 3
  · obtain ⟨hwe, hadr⟩ := hca h3
    simp [tlEvents, h3, hwe, hadr, tCA, tLatency, tData, latCycles,
          tTeardown, dataCycles, tAckOn, tAckOff]
  · by_cases h59 : t.counter = 59
    · obtain ⟨hwe, hdw, hsel⟩ := hdata (Or.inl h59)
      simp [tlEvents, h59, h3, hwe, hdw, hsel, tCA, tLatency, tData, latCycles,
            tTeardown, dataCycles, tAckOn, tAckOff]
    · by_cases h61 : t.counter = 61
      · obtain ⟨hwe, hdw, hsel⟩ := hdata (Or.inr (Or.inl h61))
        simp [tlEvents, h61, h3, h59, hwe, hdw, hsel, tCA, tLatency, tData, latCycles,
              tTeardown, dataCycles, tAckOn, tAckOff]
      · by_cases h63 : t.counter = 63
        · obtain ⟨hwe, hdw, hsel⟩ := hdata (Or.inr (Or.inr (Or.inl h63)))
          simp [tlEvents, h63, h3, h59, h61, hwe, hdw, hsel, tCA, tLatency, tData,
                latCycles, tTeardown, dataCycles, tAckOn, tAckOff]
        · by_cases h65 : t.counter = 65
          · obtain ⟨hwe, hdw, hsel⟩ := hdata (Or.inr (Or.inr (Or.inr h65)))
            simp [tlEvents, h65, h3, h59, h61, h63, hwe, hdw, hsel, tCA, tLatency,
                  tData, latCycles, tTeardown, dataCycles, tAckOn, tAckOff]
          · simp [tlEvents, h3, h59, h61, h63, h65, tCA, tLatency, tData, latCycles,
                  tTeardown, dataCycles, tAckOn, tAckOff]

/-- Consistency of the named event times with the absolute-time scan of
the built delta sequence, for the two concrete widths at latency 6. -/
theorem toAbsolute_dtSequence86 :
    toAbsolute 0 (dtSequence 8 6) =
      [(0, SeqTag.initialDelay), (3, SeqTag.caPhase), (15, SeqTag.latencyPhase),
       (59, SeqTag.dataSub 0), (61, SeqTag.dataSub 1), (63, SeqTag.dataSub 2),
       (65, SeqTag.dataSub 3), (67, SeqTag.teardown), (69, SeqTag.ackOn),
       (70, SeqTag.ackOff), (71, SeqTag.seqEnd)]
    ∧ toAbsolute 0 (dtSequence 16 6) =
      [(0, SeqTag.initialDelay), (3, SeqTag.caPhase), (15, SeqTag.latencyPhase),
       (59, SeqTag.dataSub 0), (61, SeqTag.dataSub 1), (63, SeqTag.teardown),
       (65, SeqTag.ackOn), (66, SeqTag.ackOff), (67, SeqTag.seqEnd)]
    ∧ tCA = 3 ∧ tLatency = 15 ∧ tData 6 = 59 ∧ tTeardown 8 6 = 67
    ∧ tAckOn 8 6 = 69 ∧ tAckOff 8 6 = 70 ∧ lastEvent 8 6 = 71 := by
  exact ⟨rfl, rfl, rfl, rfl, rfl, rfl, rfl, rfl, rfl⟩

end HyperRAMModel

namespace HyperRAMModel

/-! ### C1 — acknowledgment timing -/

set_option maxRecDepth 40000 in
/-- C1 (counterexample to the claim as stated): in the run under a held
read request from the reset state, the first cycle on which the request
is pending with the phase counter at phase 1 (and the sequencer idle) is
cycle 1, and the acknowledgment pulse is high at cycle 71 = 1 + 70 and
already low again at cycle 72 = 1 + 71 — not 71 cycles after cycle 1 as
claimed. -/
theorem c1_ack_timing_counterexample :
    (runHR 8 6 c1u s0 1).counter = 0
    ∧ (c1u 1).cyc = true ∧ (c1u 1).stb = true ∧ (runHR 8 6 c1u s0 1).clk_phase = 1
    ∧ (runHR 8 6 c1u s0 72).ack = false
    ∧ (runHR 8 6 c1u s0 71).ack = true := by decide

/-- C1 (amended): for width 8, latency 6, the acknowledgment pulse is
asserted exactly 70 cycles after the cycle on which the request is seen
pending at phase 1 with the sequencer idle, and deasserted 71 cycles
after it: the spec formula `3+12+(6*8-4)+8+2+2 = 71` is the length of
the whole timeline (the ack-deassert offset), not the ack-assert offset. -/
theorem c1_ack_timing_amended (u : Nat → Input) (s : State)
    (h0 : s.counter = 0) (ha : s.ack = false) (ht : trigger s (u 0) = true) :
    (runHR 8 6 u s 70).ack = true
    ∧ ∀ k, k ≤ 71 → (runHR 8 6 u s k).ack = true → k = 70 := by
  have hc := run_counter_track u s h0 ht
  have h70 : (runHR 8 6 u s 70).ack = true := by
    have h69 : (runHR 8 6 u s 69).counter = 69 := hc 69 (by omega)
    rw [show (70 : Nat) = 69 + 1 by norm_num, runHR_succ, ack_step86, h69]
    simp
  refine ⟨h70, fun k hk hka => ?_⟩
  by_cases hlo : k ≤ 69
  · exact absurd hka (by simp [run_ack_low u s h0 ht ha k hlo])
  · by_cases h71 : k = 71
    · subst h71
      have hc70 : (runHR 8 6 u s 70).counter = 70 := hc 70 (by omega)
      rw [show (71 : Nat) = 70 + 1 by norm_num, runHR_succ, ack_step86, hc70] at hka
      simp at hka
    · omega

set_option maxRecDepth 40000 in
/-- C1 witness: the amended theorem instantiated on the held-request run
from the phase-1 reset state. -/
theorem c1_ack_timing_witness : (runHR 8 6 c1u sP1 70).ack = true :=
  (c1_ack_timing_amended c1u sP1 rfl rfl (by decide)).1

/-! ### C2 — command-address encoding -/

/-- C2: in 8-bit mode the command-address word has bit47 = NOT
write-enable, bit46 = 0, bit45 = 1, bits 44:16 = address >> 2,
bits 2:1 = address & 3, bit0 = 0; and the word loaded into the shift
register at the CA event is computed from the live request fields of
that very cycle (the word is a pure function of the inputs, never
registered). -/
theorem c2_ca_encoding :
    (∀ (we : Bool) (adr : Nat), adr < 2 ^ 30 →
      (caWord 8 we adr).testBit 47 = ! we
      ∧ (caWord 8 we adr).testBit 46 = false
      ∧ (caWord 8 we adr).testBit 45 = true
      ∧ caWord 8 we adr / 2 ^ 16 % 2 ^ 29 = adr / 4
      ∧ caWord 8 we adr / 2 % 4 = adr % 4
      ∧ (caWord 8 we adr).testBit 0 = false)
    ∧ ∀ (s : State) (i : Input), s.counter = tCA →
        (stepHR 8 6 s i).sr = caWord 8 i.we i.adr := by
  constructor
  · intro we adr h
    have h4 : adr % 4 < 4 := Nat.mod_lt _ (by norm_num)
    have hd : adr / 4 < 2 ^ 28 := by omega
    have hd2 : adr / 4 < 268435456 := by omega
    cases we
    · have hcw : caWord 8 false adr =
          2 ^ 47 + 2 ^ 45 + (adr / 4 * 2 ^ 16 + adr % 4 * 2) := by
        rw [caWord]
        norm_num [Nat.mod_eq_of_lt hd2]
      rw [hcw]
      simp only [Nat.testBit_to_div_mod, decide_eq_true_eq, decide_eq_false_iff_not,
        Bool.not_false, Bool.not_true, pow_zero, Nat.div_one]
      have e47 : (2 ^ 47 + 2 ^ 45 + (adr / 4 * 2 ^ 16 + adr % 4 * 2)) / 2 ^ 47 = 1 := by omega
      have e46 : (2 ^ 47 + 2 ^ 45 + (adr / 4 * 2 ^ 16 + adr % 4 * 2)) / 2 ^ 46 = 2 := by omega
      have e45 : (2 ^ 47 + 2 ^ 45 + (adr / 4 * 2 ^ 16 + adr % 4 * 2)) / 2 ^ 45 = 5 := by omega
      omega
    · have hcw : caWord 8 true adr =
          2 ^ 45 + (adr / 4 * 2 ^ 16 + adr % 4 * 2) := by
        rw [caWord]
        norm_num [Nat.mod_eq_of_lt hd2]
      rw [hcw]
      simp only [Nat.testBit_to_div_mod, decide_eq_true_eq, decide_eq_false_iff_not,
        Bool.not_false, Bool.not_true, pow_zero, Nat.div_one]
      have e47 : (2 ^ 45 + (adr / 4 * 2 ^ 16 + adr % 4 * 2)) / 2 ^ 47 = 0 := by omega
      have e46 : (2 ^ 45 + (adr / 4 * 2 ^ 16 + adr % 4 * 2)) / 2 ^ 46 = 0 := by omega
      have e45 : (2 ^ 45 + (adr / 4 * 2 ^ 16 + adr % 4 * 2)) / 2 ^ 45 = 1 := by omega
      omega
  · intro s i h
    simp [stepHR, tlEvents, tlCounter, syncFree, apply_ite State.sr, h,
          tCA, tLatency, tData, latCycles, tTeardown, dataCycles, tAckOn, tAckOff]

/-- C2 witness: the encoding theorem instantiated at a concrete read
address. -/
theorem c2_ca_encoding_witness :
    (caWord 8 false 7).testBit 47 = true ∧ caWord 8 false 7 / 2 % 4 = 3 := by
  have h := c2_ca_encoding.1 false 7 (by norm_num)
  exact ⟨by simpa using h.1, by simpa using h.2.2.2.2.1⟩

end HyperRAMModel

namespace HyperRAMModel

/-! ### C3 — write-mask inversion -/

/-- C3: in 8-bit mode the four data-phase sub-steps drive the RWDS mask
bit, in order, as NOT sel[3], NOT sel[2], NOT sel[1], NOT sel[0] of the
live byte-select: the value assigned at the sub-step's event cycle is
the complement of the corresponding select bit, it is held through the
sub-step's second cycle, and the mask output enable is driven from
write-enable at the start of the data phase. -/
theorem c3_mask_inversion : ∀ (k : Nat), k < 4 → ∀ (s : State) (i : Input),
    (s.counter = 59 + 2 * k →
      (stepHR 8 6 s i).rwds_out % 2 = (if i.sel.testBit (3 - k) then 0 else 1))
    ∧ (s.counter = 60 + 2 * k →
      (stepHR 8 6 s i).rwds_out = s.rwds_out ∧ (stepHR 8 6 s i).rwds_oe = s.rwds_oe)
    ∧ (s.counter = 59 → (stepHR 8 6 s i).rwds_oe = i.we) := by
  intro k hk s i
  interval_cases k
  · refine ⟨fun h => ?_, fun h => ?_, fun h => ?_⟩
    · cases htb : i.sel.testBit 3 <;>
        simp [stepHR, tlEvents, tlCounter, syncFree, setRwds0, h, htb, tCA, tLatency,
              tData, latCycles, tTeardown, dataCycles, tAckOn, tAckOff,
              apply_ite State.rwds_out] <;> omega
    · constructor <;>
        simp [stepHR, tlEvents, tlCounter, syncFree, h, tCA, tLatency, tData, latCycles,
              tTeardown, dataCycles, tAckOn, tAckOff,
              apply_ite State.rwds_out, apply_ite State.rwds_oe]
    · simp [stepHR, tlEvents, tlCounter, syncFree, h, tCA, tLatency, tData, latCycles,
            tTeardown, dataCycles, tAckOn, tAckOff, apply_ite State.rwds_oe]
  · refine ⟨fun h => ?_, fun h => ?_, fun h => ?_⟩
    · cases htb : i.sel.testBit 2 <;>
        simp [stepHR, tlEvents, tlCounter, syncFree, setRwds0, h, htb, tCA, tLatency,
              tData, latCycles, tTeardown, dataCycles, tAckOn, tAckOff,
              apply_ite State.rwds_out] <;> omega
    · constructor <;>
        simp [stepHR, tlEvents, tlCounter, syncFree, h, tCA, tLatency, tData, latCycles,
              tTeardown, dataCycles, tAckOn, tAckOff,
              apply_ite State.rwds_out, apply_ite State.rwds_oe]
    · simp [stepHR, tlEvents, tlCounter, syncFree, h, tCA, tLatency, tData, latCycles,
            tTeardown, dataCycles, tAckOn, tAckOff, apply_ite State.rwds_oe]
  · refine ⟨fun h => ?_, fun h => ?_, fun h => ?_⟩
    · cases htb : i.sel.testBit 1 <;>
        simp [stepHR, tlEvents, tlCounter, syncFree, setRwds0, h, htb, tCA, tLatency,
              tData, latCycles, tTeardown, dataCycles, tAckOn, tAckOff,
              apply_ite State.rwds_out] <;> omega
    · constructor <;>
        simp [stepHR, tlEvents, tlCounter, syncFree, h, tCA, tLatency, tData, latCycles,
              tTeardown, dataCycles, tAckOn, tAckOff,
              apply_ite State.rwds_out, apply_ite State.rwds_oe]
    · simp [stepHR, tlEvents, tlCounter, syncFree, h, tCA, tLatency, tData, latCycles,
            tTeardown, dataCycles, tAckOn, tAckOff, apply_ite State.rwds_oe]
  · refine ⟨fun h => ?_, fun h => ?_, fun h => ?_⟩
    · cases htb : i.sel.testBit 0 <;>
        simp [stepHR, tlEvents, tlCounter, syncFree, setRwds0, h, htb, tCA, tLatency,
              tData, latCycles, tTeardown, dataCycles, tAckOn, tAckOff,
              apply_ite State.rwds_out] <;> omega
    · constructor <;>
        simp [stepHR, tlEvents, tlCounter, syncFree, h, tCA, tLatency, tData, latCycles,
              tTeardown, dataCycles, tAckOn, tAckOff,
              apply_ite State.rwds_out, apply_ite State.rwds_oe]
    · simp [stepHR, tlEvents, tlCounter, syncFree, h, tCA, tLatency, tData, latCycles,
            tTeardown, dataCycles, tAckOn, tAckOff, apply_ite State.rwds_oe]

/-- C3 witness: the first sub-step of a write with byte-select 0b1010
drives the mask low (sel bit 3 set ⇒ mask 0). -/
theorem c3_mask_inversion_witness :
    (stepHR 8 6 { s0 with counter := 59 }
      { cyc := true, stb := true, we := true, adr := 0, dat_w := 0,
        sel := 10, dq_in := 0 }).rwds_out % 2 = 0 := by
  have h := (c3_mask_inversion 0 (by norm_num) { s0 with counter := 59 }
    { cyc := true, stb := true, we := true, adr := 0, dat_w := 0,
      sel := 10, dq_in := 0 }).1 (by norm_num)
  simpa using h

/-! ### C4 — phase-1 alignment of the transaction start -/

/-- C4: from the idle state the timeline starts exactly on a cycle where
the request is pending and the phase counter equals 1 — no other
condition gates the start; concretely, a request held pending from
phase 2 leaves the timeline idle through phases 2, 3, 0 and starts it at
the next phase-1 cycle. -/
theorem c4_phase_alignment :
    (∀ (s : State) (i : Input), s.counter = 0 →
      ((stepHR 8 6 s i).counter = if i.cyc && i.stb && (s.clk_phase == 1) then 1 else 0)
      ∧ ((stepHR 8 6 s i).counter ≠ 0 ↔ (i.cyc = true ∧ i.stb = true ∧ s.clk_phase = 1)))
    ∧ (runHR 8 6 uHeld sPhase2 1).counter = 0
    ∧ (runHR 8 6 uHeld sPhase2 2).counter = 0
    ∧ (runHR 8 6 uHeld sPhase2 3).counter = 0
    ∧ (runHR 8 6 uHeld sPhase2 3).clk_phase = 1
    ∧ (runHR 8 6 uHeld sPhase2 4).counter = 1 := by
  refine ⟨fun s i h => ?_, by decide, by decide, by decide, by decide, by decide⟩
  rw [counter_step86]
  constructor
  · simp [h, trigger]
  · simp [h, trigger]

/-- C4 witness: from the reset state (phase 0) a pending request does
not start the timeline. -/
theorem c4_phase_alignment_witness : (stepHR 8 6 s0 c10base).counter = 0 := by
  have h := (c4_phase_alignment.1 s0 c10base rfl).1
  simpa [c10base] using h

end HyperRAMModel

namespace HyperRAMModel

/-! ### C5 — mutual exclusion of timelines -/

/-- C5: in any run from a state with the acknowledge register low, two
acknowledgment pulses are at least 72 cycles apart — never closer than
the 71-cycle transaction period — whatever the trigger inputs do
(including a request held asserted on every cycle): a trigger during an
active timeline is ignored, and the single timeline counter means at
most one timeline is ever in flight. -/
theorem c5_mutual_exclusion (u : Nat → Input) (s : State) (ha : s.ack = false) :
    ∀ m n, m < n → (runHR 8 6 u s m).ack = true → (runHR 8 6 u s n).ack = true →
      m + 72 ≤ n ∧ 71 ≤ n - m := by
  intro m n hmn ham han
  obtain ⟨p, hp, hp69⟩ := ack_origin u s ha m ham
  obtain ⟨q, hq, hq69⟩ := ack_origin u s ha n han
  have : p + 72 ≤ q := counter69_spacing u s p q (by omega) hp69 hq69
  omega

set_option maxRecDepth 80000 in
/-- C5 witness: on the run with the request held asserted on every
cycle, the first two acknowledgment pulses (cycles 70 and 142) are 72
cycles apart. -/
theorem c5_mutual_exclusion_witness : 70 + 72 ≤ 142 ∧ 71 ≤ 142 - 70 :=
  c5_mutual_exclusion c1u sP1 rfl 70 142 (by norm_num) (by decide) (by decide)

/-! ### C6 — width-dependent data-phase length -/

/-- C6: the built sequence has a data phase of four 2-cycle sub-steps
(8 cycles) for width 8 and two 2-cycle sub-steps (4 cycles) for width
16, for every configured latency. -/
theorem c6_data_phase_length (latency : Nat) :
    ((dtSequence 8 latency).drop 3).take 4 =
      [(2, SeqTag.dataSub 0), (2, SeqTag.dataSub 1),
       (2, SeqTag.dataSub 2), (2, SeqTag.dataSub 3)]
    ∧ ((dtSequence 16 latency).drop 3).take 2 =
      [(2, SeqTag.dataSub 0), (2, SeqTag.dataSub 1)]
    ∧ tTeardown 8 latency - tData latency = 8
    ∧ tTeardown 16 latency - tData latency = 4
    ∧ (dtSequence 8 latency).length = 11
    ∧ (dtSequence 16 latency).length = 9 := by
  refine ⟨rfl, rfl, ?_, ?_, rfl, rfl⟩ <;> simp [tTeardown, dataCycles]

/-! ### C7 — write-payload load -/

set_option maxRecDepth 40000 in
/-- C7 (counterexample to the claim as stated): a write with payload 1
loads the shift register with 65536 = 1 << 16 at the start of the data
phase, not with the zero-extension of the payload (which would be 1). -/
theorem c7_payload_counterexample :
    (runHR 8 6 c7u sP1 60).sr = 65536 ∧ (runHR 8 6 c7u sP1 60).sr ≠ (c7u 59).dat_w := by
  decide

/-- C7 (amended): at the start of the data phase the write payload is
loaded into bits 47:16 of the shift register with bits 15:0 cleared
(`sr = dat_w << 16`, the payload left-justified against the 48-bit
register, not zero-extended), and the data and mask output enables are
driven from write-enable and then left untouched by the remaining
data-phase events. -/
theorem c7_payload_amended : ∀ (s : State) (i : Input),
    (s.counter = 59 →
      (stepHR 8 6 s i).sr = i.dat_w % 2 ^ 32 * 2 ^ 16
      ∧ (stepHR 8 6 s i).dq_oe = i.we
      ∧ (stepHR 8 6 s i).rwds_oe = i.we)
    ∧ (60 ≤ s.counter → s.counter ≤ 66 → (stepHR 8 6 s i).dq_oe = s.dq_oe) := by
  intro s i
  constructor
  · intro h
    refine ⟨?_, ?_, ?_⟩ <;>
      simp [stepHR, tlEvents, tlCounter, syncFree, h, tCA, tLatency, tData, latCycles,
            tTeardown, dataCycles, tAckOn, tAckOff]
  · intro h1 h2
    have n3 : ¬ s.counter = 3 := by omega
    have n15 : ¬ s.counter = 15 := by omega
    have n59 : ¬ s.counter = 59 := by omega
    have n67 : ¬ s.counter = 67 := by omega
    have n69 : ¬ s.counter = 69 := by omega
    have n70 : ¬ s.counter = 70 := by omega
    simp [stepHR, tlEvents, tlCounter, syncFree, tCA, tLatency, tData, latCycles,
          tTeardown, dataCycles, tAckOn, tAckOff, n3, n15, n59, n67, n69, n70,
          apply_ite State.dq_oe]

/-- C7 witness: the amended theorem instantiated at the data-phase event
with payload 1. -/
theorem c7_payload_witness :
    (stepHR 8 6 { s0 with counter := 59 } (c7u 59)).sr = 65536 := by
  have h := ((c7_payload_amended { s0 with counter := 59 } (c7u 59)).1 rfl).1
  simpa [c7u] using h

end HyperRAMModel

namespace HyperRAMModel

/-! ### C8 — read-data stability after acknowledgment -/

set_option maxRecDepth 40000 in
/-- C8 (counterexample to the claim as stated): in a run with a single
read request (no later request ever arrives) and changing values on the
`dq` input pins, the acknowledgment is high at cycle 70 but the
read-data output at cycle 72 differs from its value at the
acknowledgment cycle: the shift register keeps shifting after the
transaction, so read-data is not stable until the next request. -/
theorem c8_stability_counterexample :
    (runHR 8 6 c8u sP1 70).ack = true
    ∧ (c8u 71).cyc = false ∧ (c8u 71).stb = false
    ∧ dat_r (runHR 8 6 c8u sP1 72) ≠ dat_r (runHR 8 6 c8u sP1 70) := by decide

/-- C8 (amended): the read-data output is valid on the acknowledgment
cycle and keeps its value through the following (acknowledge-deassert)
cycle — on the ack cycle the phase counter is at phase 3, so no shift
occurs and no timeline event touches the register; stability beyond
that cycle is not guaranteed, since the shift register resumes shifting
on even phases. -/
theorem c8_stability_amended : ∀ (s : State) (i : Input),
    s.counter = 70 → s.clk_phase = 3 →
    (stepHR 8 6 s i).sr = s.sr ∧ dat_r (stepHR 8 6 s i) = dat_r s := by
  intro s i h hp
  have hsr : (stepHR 8 6 s i).sr = s.sr := by
    simp [stepHR, tlEvents, tlCounter, syncFree, shiftSr, h, hp, tCA, tLatency, tData,
          latCycles, tTeardown, dataCycles, tAckOn, tAckOff, apply_ite State.sr]
  exact ⟨hsr, by simp [dat_r, hsr]⟩

/-- C8 witness: the amended theorem instantiated at the
acknowledgment-cycle state. -/
theorem c8_stability_witness :
    (stepHR 8 6 { s0 with counter := 70, clk_phase := 3 } (c8u 71)).sr
      = ({ s0 with counter := 70, clk_phase := 3 } : State).sr :=
  (c8_stability_amended { s0 with counter := 70, clk_phase := 3 } (c8u 71) rfl rfl).1

/-! ### C9 — construction-time width check -/

/-- C9: constructing a controller succeeds exactly for data widths 8 and
16; any other width is rejected at construction time, before any
transaction can occur. -/
theorem c9_width_check (dw latency : Nat) :
    (∃ c, mkHyperRAM dw latency = Except.ok c) ↔ (dw = 8 ∨ dw = 16) := by
  unfold mkHyperRAM
  by_cases h : dw = 8 ∨ dw = 16 <;> simp [h]

/-! ### C10 — live (non-latched) request fields -/

set_option maxRecDepth 40000 in
/-- C10: the sequencer latches nothing at trigger time — two runs from
the same state whose inputs agree on `cyc`, `stb` and the `dq` pins
everywhere, and whose request fields agree on each scheduled action
cycle (`we`/`adr` when the counter is at the CA event, `we`/`dat_w`/
`sel` when it is at a data event), have identical states, hence
identical pin-level behaviour, even if the fields differed at the
trigger cycle; conversely, changing the write payload after the trigger
but before the data-phase action changes the value driven on the `dq`
pins. -/
theorem c10_live_fields :
    (∀ (u v : Nat → Input) (s : State),
      (∀ k, (u k).cyc = (v k).cyc ∧ (u k).stb = (v k).stb ∧ (u k).dq_in = (v k).dq_in) →
      (∀ k, (runHR 8 6 u s k).counter = 3 → (u k).we = (v k).we ∧ (u k).adr = (v k).adr) →
      (∀ k, ((runHR 8 6 u s k).counter = 59 ∨ (runHR 8 6 u s k).counter = 61
              ∨ (runHR 8 6 u s k).counter = 63 ∨ (runHR 8 6 u s k).counter = 65) →
        (u k).we = (v k).we ∧ (u k).dat_w = (v k).dat_w ∧ (u k).sel = (v k).sel) →
      ∀ n, runHR 8 6 u s n = runHR 8 6 v s n)
    ∧ c10u 0 = c10v 0
    ∧ dq_o 8 (runHR 8 6 c10u sP1 60) ≠ dq_o 8 (runHR 8 6 c10v sP1 60)
    ∧ (runHR 8 6 c10v sP1 60).dq_oe = true := by
  refine ⟨fun u v s hio hca hdata n => ?_, by decide, by decide, by decide⟩
  induction n with
  | zero => rfl
  | succ n ih =>
    rw [runHR_succ, runHR_succ,
        step_congr (runHR 8 6 u s n) (u n) (v n) (hio n).1 (hio n).2.1 (hio n).2.2
          (hca n) (hdata n),
        ih]

/-- C10 witness: the non-latching theorem applied to two held-request
runs whose address differs only at the trigger cycle: the runs coincide. -/
theorem c10_live_fields_witness :
    runHR 8 6 c10u sP1 10 = runHR 8 6 c10w sP1 10 :=
  c10_live_fields.1 c10u c10w sP1
    (fun k => by cases k <;> exact ⟨rfl, rfl, rfl⟩)
    (fun k => by
      cases k with
      | zero => intro h; exact absurd h (by decide)
      | succ p => intro _; exact ⟨rfl, rfl⟩)
    (fun k => by
      cases k with
      | zero => intro h; exact absurd h (by decide)
      | succ p => intro _; exact ⟨rfl, rfl, rfl⟩)
    10

end HyperRAMModel
